import Mathlib

/-!
Verification development for the pytfmpval wrapper (src/pytfmpval/tfmp.py).

The Python drivers `score2pval` and `pval2score` are embedded faithfully over
exact rationals (Python floats become `ℚ`, Python `int()` becomes truncation
toward zero).  The C++ `Matrix` engine the wrapper calls into
(`computesIntegerMatrix`, `lookForPvalue`, `lookForScore`, `toLogOddRatio`,
`readMatrix`) is not part of this repository's Python sources, so those
operations are modelled from the specification, as indicated by their doc
comments.  Free-memory probes (`psutil.virtual_memory().available`) are an
environment input, modelled as a function from pass index to available bytes.
-/

namespace PyTFM

/-- Python's `int()` applied to a real number: truncation toward zero. -/
def pyInt (q : ℚ) : ℤ := if 0 ≤ q then ⌊q⌋ else ⌈q⌉

/-- Python's `str.upper()` on the character list of a string (ASCII case
mapping, which is all the option tags use). -/
def pyUpper (s : String) : String := String.mk (s.data.map Char.toUpper)

/-- Helper for `pySplit`: split a character list at whitespace runs,
accumulating the current (reversed) token. -/
def splitWsAux : List Char → List Char → List (List Char)
  | [], acc => if acc = [] then [] else [acc.reverse]
  | c :: rest, acc =>
      if c.isWhitespace then
        if acc = [] then splitWsAux rest []
        else acc.reverse :: splitWsAux rest []
      else splitWsAux rest (c :: acc)

/-- Python's argument-free `str.split()`: split on whitespace runs,
discarding empty tokens. -/
def pySplit (s : String) : List String :=
  (splitWsAux s.data []).map String.mk

/-- A position weight matrix: a list of columns, each assigning a rational
log-odds weight to the 4 symbols, together with background probabilities. -/
structure PWM where
  weights : List (Fin 4 → ℚ)
  bg : Fin 4 → ℚ

/-- Modelled from the spec: the immutable quantization value produced by one
`computesIntegerMatrix` pass — integer weight table, the `offset` shift
constant, the accumulated rounding-error bound `errorMax`, the extremal
achievable integer scores, and the stored `granularity` scale factor.
The Python driver multiplies a real score by the `granularity` field and
divides the final integer score by it, while the spec describes both maps as
division, resp. multiplication, by the pass granularity; hence the stored
field is the reciprocal of the pass granularity. -/
structure QuantizationResult where
  matInt : List (Fin 4 → ℤ)
  offset : ℤ
  errorMax : ℚ
  minScore : ℤ
  maxScore : ℤ
  granularity : ℚ

/-- One column of real weights quantized at granularity `g`:
each weight is mapped via `round(weight / g)`. -/
def colRound (g : ℚ) (c : Fin 4 → ℚ) : Fin 4 → ℤ := fun a => round (c a / g)

/-- Minimum of a column of integer weights. -/
def colMin (c : Fin 4 → ℤ) : ℤ := min (min (c 0) (c 1)) (min (c 2) (c 3))

/-- Maximum of a column of integer weights. -/
def colMax (c : Fin 4 → ℤ) : ℤ := max (max (c 0) (c 1)) (max (c 2) (c 3))

/-- A column re-anchored to non-negative entries by subtracting its minimum. -/
def colShift (c : Fin 4 → ℤ) : Fin 4 → ℤ := fun a => c a - colMin c

/-- Modelled from the spec: `computesIntegerMatrix(granularity)`.  Each real
weight is mapped to `round(weight / granularity)`; columns are re-anchored to
non-negative entries; `offset` is the shift constant re-anchoring real scores
to non-negative integer indices (the negated sum of per-column minima);
`errorMax` is the sum of per-column half-rounding-steps (in integer units);
`minScore`/`maxScore` are the sums of per-column min/max integer weights.
A pure function of the real matrix and the granularity. -/
def computesIntegerMatrix (m : PWM) (g : ℚ) : QuantizationResult :=
  let raw := m.weights.map (colRound g)
  let shifted := raw.map colShift
  { matInt := shifted
    offset := (raw.map (fun c => - colMin c)).sum
    errorMax := (m.weights.length : ℚ) / 2
    minScore := (shifted.map colMin).sum
    maxScore := (shifted.map colMax).sum
    granularity := 1 / g }

/-- One forward dynamic-programming step of the score-distribution engine:
extend the distribution `d` by one column `c` of integer weights under the
background model `bg`. -/
def distStep (bg : Fin 4 → ℚ) (d : ℤ → ℚ) (c : Fin 4 → ℤ) : ℤ → ℚ :=
  fun t => ∑ a : Fin 4, bg a * d (t - c a)

/-- Modelled from the spec: the exact discrete probability distribution of the
total integer score over the columns, computed by forward dynamic programming
starting from the point mass at 0. -/
def dist (m : PWM) (q : QuantizationResult) : ℤ → ℚ :=
  q.matInt.foldl (distStep m.bg) (fun t => if t = 0 then 1 else 0)

/-- Modelled from the spec: the cumulative tail mass of the score distribution
at or above `t` (all mass lies within `[0, maxScore]`, so the sum over
`Finset.Icc t maxScore` is the true tail). -/
def tailProb (m : PWM) (q : QuantizationResult) (t : ℤ) : ℚ :=
  ∑ s ∈ Finset.Icc t q.maxScore, dist m q s

/-- Modelled from the spec: `lookForPvalue(score, min_s, max_s, ppv, pv)`.
The exact value is the true cumulative tail mass at `score`; the approximate
value is identical to the exact one whenever the full computation is feasible,
which in this model it always is, so the returned pair `(ppv, pv)` is equal.
The search-window arguments are recorded but cannot change the result here. -/
def lookForPvalue (m : PWM) (q : QuantizationResult) (score min_s max_s : ℤ) :
    ℚ × ℚ :=
  (tailProb m q score, tailProb m q score)

/-- Modelled from the spec: `lookForScore(min_s, max_s, pval, pv, ppv)` finds
the smallest integer score within the bracket whose tail probability is at
most the target.  An unreachable target — outside `[0, 1]` or with no
qualifying score in the bracket — is clamped to `minScore`/`maxScore` and
flagged as non-convergent by returning an unequal `(pv, ppv)` pair (the spec
fixes the flag, not the pair's numeric values).  Returns `(score, pv, ppv)`. -/
def lookForScore (m : PWM) (q : QuantizationResult) (min_s max_s : ℤ)
    (pval : ℚ) : ℤ × ℚ × ℚ :=
  if h : 0 ≤ pval ∧ pval ≤ 1 ∧
      ((Finset.Icc min_s max_s).filter (fun s => tailProb m q s ≤ pval)).Nonempty
  then
    let s := ((Finset.Icc min_s max_s).filter
      (fun s => tailProb m q s ≤ pval)).min' h.2.2
    (s, tailProb m q s, tailProb m q s)
  else
    (if 1 < pval then q.minScore else q.maxScore, 0, 1)

/-- The granularity used on pass `k` (0-indexed): the drivers start at `0.1`
and divide by `10` after each pass. -/
def gran (k : ℕ) : ℚ := (1 / 10) / 10 ^ k

/-- The drivers' granularity floor, `1e-10`. -/
def maxGran : ℚ := 1 / 10 ^ 10

theorem gran_eq_pow (k : ℕ) : gran k = 1 / 10 ^ (k + 1) := by
  simp [gran, pow_succ, one_div, mul_comm]
  ring

theorem gran_guard {k : ℕ} (h : maxGran < gran (k + 1)) : k < 8 := by
  rw [gran_eq_pow, maxGran, one_div, one_div] at h
  have h10 : (1 : ℚ) < 10 := by norm_num
  have hlt : (10 : ℚ) ^ (k + 2) < 10 ^ 10 := by
    have hpos : (0 : ℚ) < 10 ^ (k + 2) := by positivity
    have hpos' : (0 : ℚ) < 10 ^ 10 := by positivity
    exact (inv_lt_inv₀ hpos' hpos).mp h
  have := (pow_lt_pow_iff_right₀ h10).mp hlt
  omega

/-- How a driver run ended: true convergence, the memory floor, or the
granularity floor. -/
inductive Outcome
  | converged
  | memExceeded
  | granExhausted
deriving DecidableEq, Repr

/-- The values `score2pval` computes on one pass: the pass index, the integer
score queried, and the search window passed to `lookForPvalue`. -/
structure SPPass where
  k : ℕ
  sc : ℤ
  min_s : ℤ
  max_s : ℤ
deriving DecidableEq, Repr

/-- The observable result of a `score2pval` run: the returned p-value, the
outcome, the index of the final pass, and the per-pass trace. -/
structure SPResult where
  value : ℚ
  outcome : Outcome
  finalPass : ℕ
  trace : List SPPass
deriving DecidableEq, Repr

/-- The refinement loop of `score2pval` (tfmp.py lines 148-167), one pass per
call.  Per pass: quantize at the current granularity, map the requested real
score and the window bounds into the integer domain with Python `int()`
truncation, query `lookForPvalue`, then test the free-memory reading against
the budget, then test convergence (`ppv == pv`), then move to the next finer
granularity unless the floor is reached. -/
def score2pvalGo (m : PWM) (req_score thresh : ℚ) (mem : ℕ → ℚ) (k : ℕ) :
    SPResult :=
  let q := computesIntegerMatrix m (gran k)
  let max_s := pyInt (req_score * q.granularity + q.offset + q.errorMax + 1)
  let min_s := pyInt (req_score * q.granularity + q.offset - q.errorMax - 1)
  let score := pyInt (req_score * q.granularity + q.offset)
  let pvs := lookForPvalue m q score min_s max_s
  let e : SPPass := ⟨k, score, min_s, max_s⟩
  if mem k ≤ thresh then ⟨pvs.2, Outcome.memExceeded, k, [e]⟩
  else if pvs.1 = pvs.2 then ⟨pvs.2, Outcome.converged, k, [e]⟩
  else if h : maxGran < gran (k + 1) then
    let r := score2pvalGo m req_score thresh mem (k + 1)
    ⟨r.value, r.outcome, r.finalPass, e :: r.trace⟩
  else ⟨pvs.2, Outcome.granExhausted, k, [e]⟩
termination_by 10 - k
decreasing_by
  have := gran_guard h
  omega

/-- `score2pval(matrix, req_score, mem_thresh)` (tfmp.py lines 120-167).
`mem_thresh` is in GB and is converted to bytes; `mem` is the sequence of
free-memory readings, one per pass.  The initial `while` guard
`0.1 > 1e-10` is trivially true, so the first pass always runs. -/
def score2pval (m : PWM) (req_score mem_thresh : ℚ) (mem : ℕ → ℚ) : SPResult :=
  score2pvalGo m req_score (mem_thresh * 1000 * 1024 * 1024) mem 0

/-- The values `pval2score` uses on one pass: the pass index, the bracket
passed to `lookForScore`, and the integer score it returned. -/
structure PSPass where
  k : ℕ
  min_s : ℤ
  max_s : ℤ
  s : ℤ
deriving DecidableEq, Repr

/-- The observable result of a `pval2score` run: the returned real score, the
outcome, the index of the final pass, the integer score of the final
`lookForScore` call, and the per-pass trace. -/
structure PSResult where
  value : ℚ
  outcome : Outcome
  finalPass : ℕ
  finalS : ℤ
  trace : List PSPass
deriving DecidableEq, Repr

/-- The refinement loop of `pval2score` (tfmp.py lines 201-223), one pass per
call.  Per pass: quantize, call `lookForScore` on the current bracket, rescale
the bracket for the next pass, then test convergence (`ppv == pv`), then the
memory budget, then move to the next finer granularity unless the floor is
reached.  Every exit path computes the final real score as
`(score - offset) / granularity` from the exiting pass's quantization, as the
Python code does once after the loop ends. -/
def pval2scoreGo (m : PWM) (pval thresh : ℚ) (mem : ℕ → ℚ) (k : ℕ)
    (min_s max_s : ℤ) : PSResult :=
  let q := computesIntegerMatrix m (gran k)
  let res := lookForScore m q min_s max_s pval
  let s := res.1
  let pv := res.2.1
  let ppv := res.2.2
  let min' := (s - ⌈q.errorMax + 1 / 2⌉) * 10
  let max' := (s + ⌈q.errorMax + 1 / 2⌉) * 10
  let e : PSPass := ⟨k, min_s, max_s, s⟩
  if ppv = pv then
    ⟨((s : ℚ) - q.offset) / q.granularity, Outcome.converged, k, s, [e]⟩
  else if mem k ≤ thresh then
    ⟨((s : ℚ) - q.offset) / q.granularity, Outcome.memExceeded, k, s, [e]⟩
  else if h : maxGran < gran (k + 1) then
    let r := pval2scoreGo m pval thresh mem (k + 1) min' max'
    ⟨r.value, r.outcome, r.finalPass, r.finalS, e :: r.trace⟩
  else
    ⟨((s : ℚ) - q.offset) / q.granularity, Outcome.granExhausted, k, s, [e]⟩
termination_by 10 - k
decreasing_by
  have := gran_guard h
  omega

/-- `pval2score(matrix, pval, mem_thresh)` (tfmp.py lines 170-223).  The
initial bracket is computed from the quantization at the initial granularity
`0.1`: `[int(minScore), int(maxScore + ceil(errorMax + 0.5))]` (the `int()`
casts are identities on these integer quantities). -/
def pval2score (m : PWM) (pval mem_thresh : ℚ) (mem : ℕ → ℚ) : PSResult :=
  let q0 := computesIntegerMatrix m (1 / 10)
  pval2scoreGo m pval (mem_thresh * 1000 * 1024 * 1024) mem 0
    q0.minScore (q0.maxScore + ⌈q0.errorMax + 1 / 2⌉)

/-- Which log-odds conversion has been applied to a matrix handle. -/
inductive LogTag
  | raw
  | natural
  | base2
deriving DecidableEq, Repr

/-- Modelled from the spec: the C++ `Matrix` handle as seen by the string-level
wrappers `create_matrix`/`read_matrix` — background probabilities, the motif
text handed to the parser, and a tag recording which log-odds conversion was
applied.  The numeric parsing and the log computation live in the external
collaborator, outside this repository's Python sources. -/
structure TFMatrix where
  bgA : ℚ
  bgC : ℚ
  bgG : ℚ
  bgT : ℚ
  body : String
  tag : LogTag
deriving DecidableEq, Repr

/-- Modelled from the spec: natural-log odds conversion (the Python code's
`m.toLogOddRatio()` call), recorded as a tag. -/
def toLogOddsNatural (m : TFMatrix) : TFMatrix := { m with tag := LogTag.natural }

/-- Modelled from the spec: base-2 log-odds conversion (the Python code's
`m.toLog2OddRatio()` call), recorded as a tag. -/
def toLogOddsBase2 (m : TFMatrix) : TFMatrix := { m with tag := LogTag.base2 }

/-- `create_matrix(matrix_file, bg, mat_type, log_type)` (tfmp.py lines
38-73).  Builds the handle, stores the motif text, and for a counts matrix
applies the selected log-odds conversion; an unrecognized `log_type` prints a
warning and falls back to the natural log.  The second component records
whether that warning was printed. -/
def create_matrix (matrix_file : String) (bg : ℚ × ℚ × ℚ × ℚ)
    (mat_type log_type : String) : TFMatrix × Bool :=
  let m : TFMatrix :=
    ⟨bg.1, bg.2.1, bg.2.2.1, bg.2.2.2, matrix_file, LogTag.raw⟩
  if pyUpper mat_type = "COUNTS" then
    if pyUpper log_type = "NAT" then (toLogOddsNatural m, false)
    else if pyUpper log_type = "LOG2" then (toLogOddsBase2 m, false)
    else (toLogOddsNatural m, true)
  else (m, false)

/-- The body of `read_matrix` inside its `try` block (tfmp.py lines 97-114):
an input whose whitespace-separated token count is not divisible by 4 raises
`ValueError` before any `Matrix` object is constructed; otherwise the handle
is built exactly as in `create_matrix`.  The `Bool` records the unrecognized
log-type warning. -/
def read_matrixBody (matrix : String) (bg : ℚ × ℚ × ℚ × ℚ)
    (mat_type log_type : String) : Except String (TFMatrix × Bool) :=
  if (pySplit matrix).length % 4 ≠ 0 then
    Except.error "Uneven rows in motif matrix. Ensure rows of equal length in input."
  else
    let m : TFMatrix :=
      ⟨bg.1, bg.2.1, bg.2.2.1, bg.2.2.2, matrix, LogTag.raw⟩
    if pyUpper mat_type = "COUNTS" then
      if pyUpper log_type = "NAT" then Except.ok (toLogOddsNatural m, false)
      else if pyUpper log_type = "LOG2" then Except.ok (toLogOddsBase2 m, false)
      else Except.ok (toLogOddsNatural m, true)
    else
      Except.ok (m, false)

/-- `read_matrix(matrix, bg, mat_type, log_type)` (tfmp.py lines 76-117): the
`ValueError` is caught inside the function itself, printed, and the function
falls through to an implicit `return None`. -/
def read_matrix (matrix : String) (bg : ℚ × ℚ × ℚ × ℚ)
    (mat_type log_type : String) : Option (TFMatrix × Bool) :=
  (read_matrixBody matrix bg mat_type log_type).toOption

/-- The relation claim C5 asserts between consecutive passes of `pval2score`:
the later pass's bracket is the earlier pass's returned integer score widened
by `ceil(errorMax + 0.5)` on each side and rescaled by the decimation factor
10, with `errorMax` taken from the earlier pass's quantization. -/
def bracketStep (m : PWM) (a b : PSPass) : Prop :=
  b.min_s = (a.s - ⌈(computesIntegerMatrix m (gran a.k)).errorMax + 1 / 2⌉) * 10 ∧
  b.max_s = (a.s + ⌈(computesIntegerMatrix m (gran a.k)).errorMax + 1 / 2⌉) * 10

/-- A fixture column assigning the four given weights to the four symbols. -/
def colQ (w0 w1 w2 w3 : ℚ) : Fin 4 → ℚ := fun a =>
  if a.val = 0 then w0 else if a.val = 1 then w1 else if a.val = 2 then w2 else w3

/-- A one-column PWM with weights `(1/2, 0, 0, 0)` and uniform background,
used as a concrete evaluation fixture. -/
def mOne : PWM := ⟨[colQ (1 / 2) 0 0 0], fun _ => 1 / 4⟩

/-- A one-column PWM with weights `(-13/100, 0, 0, 0)` and uniform background,
used as a concrete evaluation fixture. -/
def mNeg : PWM := ⟨[colQ (-13 / 100) 0 0 0], fun _ => 1 / 4⟩

/-- A free-memory environment that always reads 0 bytes available. -/
def memZero : ℕ → ℚ := fun _ => 0

/-- A free-memory environment that always reads 10 TB available, far above the
default 2 GB budget. -/
def memBig : ℕ → ℚ := fun _ => 10 ^ 13

/-- A free-memory environment that reads 10 TB on the first pass and 0 bytes
afterwards. -/
def memPair : ℕ → ℚ := fun k => if k = 0 then 10 ^ 13 else 0

theorem pyInt_mono {a b : ℚ} (h : a ≤ b) : pyInt a ≤ pyInt b := by
  unfold pyInt
  split
  · split
    · exact Int.floor_mono h
    · exact absurd (le_trans (by assumption) h) (by assumption)
  · split
    · have h1 : ⌈a⌉ ≤ 0 := by
        refine Int.ceil_le.mpr ?_
        push_cast
        exact le_of_lt (not_le.mp (by assumption))
      have h2 : 0 ≤ ⌊b⌋ := Int.floor_nonneg.mpr (by assumption)
      omega
    · exact Int.ceil_mono h

theorem foldl_distStep_nonneg (bg : Fin 4 → ℚ) (hbg : ∀ a, 0 ≤ bg a) :
    ∀ (L : List (Fin 4 → ℤ)) (d : ℤ → ℚ), (∀ t, 0 ≤ d t) →
      ∀ t, 0 ≤ L.foldl (distStep bg) d t := by
  intro L
  induction L with
  | nil => exact fun d hd t => hd t
  | cons c L ih =>
      intro d hd t
      refine ih (distStep bg d c) ?_ t
      intro u
      refine Finset.sum_nonneg ?_
      intro a _
      exact mul_nonneg (hbg a) (hd _)

theorem dist_nonneg (m : PWM) (q : QuantizationResult)
    (hbg : ∀ a, 0 ≤ m.bg a) (t : ℤ) : 0 ≤ dist m q t := by
  refine foldl_distStep_nonneg m.bg hbg _ _ ?_ t
  intro u
  dsimp only
  split <;> norm_num

theorem tailProb_anti (m : PWM) (q : QuantizationResult)
    (hbg : ∀ a, 0 ≤ m.bg a) {t1 t2 : ℤ} (h : t1 ≤ t2) :
    tailProb m q t2 ≤ tailProb m q t1 := by
  refine Finset.sum_le_sum_of_subset_of_nonneg (Finset.Icc_subset_Icc_left h) ?_
  intro i _ _
  exact dist_nonneg m q hbg i

/-- On every input the p-value returned by `score2pval` is the pass-1 tail
probability at the truncated integer image of the requested score: the
modelled engine always answers with an equal exact/approx pair, so the first
pass either converges or is cut short by the memory test, and both exits
return the same number. -/
theorem score2pval_value_eq (m : PWM) (r t : ℚ) (mem : ℕ → ℚ) :
    (score2pval m r t mem).value =
      tailProb m (computesIntegerMatrix m (gran 0))
        (pyInt (r * (computesIntegerMatrix m (gran 0)).granularity +
          ((computesIntegerMatrix m (gran 0)).offset : ℚ))) := by
  unfold score2pval score2pvalGo
  simp only [lookForPvalue]
  split
  · rfl
  · split
    · rfl
    · exact absurd trivial (by assumption)

/-- A target p-value outside `[0, 1]` is unreachable on every bracket: the
engine clamps to `minScore` (target too large) or `maxScore` (target too
small) and flags non-convergence. -/
theorem lookForScore_unreachable (m : PWM) (q : QuantizationResult)
    (min_s max_s : ℤ) {p : ℚ} (hp : p < 0 ∨ 1 < p) :
    lookForScore m q min_s max_s p =
      (if 1 < p then q.minScore else q.maxScore, 0, 1) := by
  unfold lookForScore
  rw [dif_neg]
  rintro ⟨h0, h1, -⟩
  rcases hp with hp | hp
  · exact absurd h0 (not_le.mpr hp)
  · exact absurd h1 (not_le.mpr hp)

theorem colMin_colShift (c : Fin 4 → ℤ) : colMin (colShift c) = 0 := by
  simp [colShift, colMin, min_sub_sub_right]

/-- Every quantization re-anchors the integer weights so that the minimal
achievable integer score is 0. -/
theorem computesIntegerMatrix_minScore (m : PWM) (g : ℚ) :
    (computesIntegerMatrix m g).minScore = 0 := by
  unfold computesIntegerMatrix
  simp [List.map_map, Function.comp_def, colMin_colShift]

/-- The loop invariant behind claim C4: every exit path of the `pval2score`
loop computes the final real score from the exiting pass's integer score,
offset and granularity field. -/
theorem pval2scoreGo_value (m : PWM) (p t : ℚ) (mem : ℕ → ℚ) (k : ℕ)
    (a b : ℤ) :
    (pval2scoreGo m p t mem k a b).value =
      (((pval2scoreGo m p t mem k a b).finalS : ℚ) -
        ((computesIntegerMatrix m
          (gran (pval2scoreGo m p t mem k a b).finalPass)).offset : ℚ)) /
      (computesIntegerMatrix m
        (gran (pval2scoreGo m p t mem k a b).finalPass)).granularity := by
  refine pval2scoreGo.induct m p t mem (fun k a b =>
    (pval2scoreGo m p t mem k a b).value =
      (((pval2scoreGo m p t mem k a b).finalS : ℚ) -
        ((computesIntegerMatrix m
          (gran (pval2scoreGo m p t mem k a b).finalPass)).offset : ℚ)) /
      (computesIntegerMatrix m
        (gran (pval2scoreGo m p t mem k a b).finalPass)).granularity)
    ?_ ?_ ?_ ?_ k a b
  · intro k a b
    dsimp only
    intro hpp
    unfold pval2scoreGo
    dsimp only
    rw [if_pos hpp]
  · intro k a b
    dsimp only
    intro hpp hmem
    unfold pval2scoreGo
    dsimp only
    rw [if_neg hpp, if_pos hmem]
  · intro k a b
    dsimp only
    intro hpp hmem hg ih
    unfold pval2scoreGo
    dsimp only
    rw [if_neg hpp, if_neg hmem, dif_pos hg]
    exact ih
  · intro k a b
    dsimp only
    intro hpp hmem hg
    unfold pval2scoreGo
    dsimp only
    rw [if_neg hpp, if_neg hmem, dif_neg hg]

/-- The loop invariant behind claim C5: the head of the trace records the
bracket the loop was entered with, and consecutive trace entries are related
by the bracket-rescaling step. -/
theorem pval2scoreGo_trace (m : PWM) (p t : ℚ) (mem : ℕ → ℚ) (k : ℕ)
    (a b : ℤ) :
    (∃ s rest, (pval2scoreGo m p t mem k a b).trace = ⟨k, a, b, s⟩ :: rest) ∧
      List.Chain' (bracketStep m) (pval2scoreGo m p t mem k a b).trace := by
  refine pval2scoreGo.induct m p t mem (fun k a b =>
    (∃ s rest, (pval2scoreGo m p t mem k a b).trace = ⟨k, a, b, s⟩ :: rest) ∧
      List.Chain' (bracketStep m) (pval2scoreGo m p t mem k a b).trace)
    ?_ ?_ ?_ ?_ k a b
  · intro k a b
    dsimp only
    intro hpp
    unfold pval2scoreGo
    dsimp only
    rw [if_pos hpp]
    exact ⟨⟨_, _, rfl⟩, List.chain'_singleton _⟩
  · intro k a b
    dsimp only
    intro hpp hmem
    unfold pval2scoreGo
    dsimp only
    rw [if_neg hpp, if_pos hmem]
    exact ⟨⟨_, _, rfl⟩, List.chain'_singleton _⟩
  · intro k a b
    dsimp only
    intro hpp hmem hg ih
    unfold pval2scoreGo
    dsimp only
    rw [if_neg hpp, if_neg hmem, dif_pos hg]
    obtain ⟨⟨s', rest', hr⟩, hc⟩ := ih
    refine ⟨⟨_, _, rfl⟩, ?_⟩
    dsimp only
    rw [hr] at hc ⊢
    exact List.Chain'.cons ⟨rfl, rfl⟩ hc
  · intro k a b
    dsimp only
    intro hpp hmem hg
    unfold pval2scoreGo
    dsimp only
    rw [if_neg hpp, if_neg hmem, dif_neg hg]
    exact ⟨⟨_, _, rfl⟩, List.chain'_singleton _⟩

/-- The loop invariant behind claim C3: with a target p-value outside `[0,1]`
the `pval2score` loop never converges and every pass's integer score — in
particular the final one — is clamped to the quantization's `minScore` or
`maxScore`. -/
theorem pval2scoreGo_clamp (m : PWM) {p : ℚ} (t : ℚ) (mem : ℕ → ℚ)
    (hp : p < 0 ∨ 1 < p) (k : ℕ) (a b : ℤ) :
    (pval2scoreGo m p t mem k a b).outcome ≠ Outcome.converged ∧
      ((pval2scoreGo m p t mem k a b).finalS =
          (computesIntegerMatrix m
            (gran (pval2scoreGo m p t mem k a b).finalPass)).minScore ∨
        (pval2scoreGo m p t mem k a b).finalS =
          (computesIntegerMatrix m
            (gran (pval2scoreGo m p t mem k a b).finalPass)).maxScore) := by
  refine pval2scoreGo.induct m p t mem (fun k a b =>
    (pval2scoreGo m p t mem k a b).outcome ≠ Outcome.converged ∧
      ((pval2scoreGo m p t mem k a b).finalS =
          (computesIntegerMatrix m
            (gran (pval2scoreGo m p t mem k a b).finalPass)).minScore ∨
        (pval2scoreGo m p t mem k a b).finalS =
          (computesIntegerMatrix m
            (gran (pval2scoreGo m p t mem k a b).finalPass)).maxScore))
    ?_ ?_ ?_ ?_ k a b
  · intro k a b
    dsimp only
    intro hpp
    rw [lookForScore_unreachable m _ a b hp] at hpp
    exact absurd hpp one_ne_zero
  · intro k a b
    dsimp only
    intro hpp hmem
    unfold pval2scoreGo
    dsimp only
    rw [if_neg hpp, if_pos hmem]
    refine ⟨fun hco => Outcome.noConfusion hco, ?_⟩
    dsimp only
    rw [lookForScore_unreachable m _ a b hp]
    dsimp only
    split
    · exact Or.inl rfl
    · exact Or.inr rfl
  · intro k a b
    dsimp only
    intro hpp hmem hg ih
    unfold pval2scoreGo
    dsimp only
    rw [if_neg hpp, if_neg hmem, dif_pos hg]
    exact ih
  · intro k a b
    dsimp only
    intro hpp hmem hg
    unfold pval2scoreGo
    dsimp only
    rw [if_neg hpp, if_neg hmem, dif_neg hg]
    refine ⟨fun hco => Outcome.noConfusion hco, ?_⟩
    dsimp only
    rw [lookForScore_unreachable m _ a b hp]
    dsimp only
    split
    · exact Or.inl rfl
    · exact Or.inr rfl

/-- The `pval2score` loop entered at pass `k ≤ 8` runs at most `9 - k` more
passes. -/
theorem pval2scoreGo_len (m : PWM) (p t : ℚ) (mem : ℕ → ℚ) (k : ℕ)
    (a b : ℤ) :
    k ≤ 8 → (pval2scoreGo m p t mem k a b).trace.length + k ≤ 9 := by
  refine pval2scoreGo.induct m p t mem (fun k a b =>
    k ≤ 8 → (pval2scoreGo m p t mem k a b).trace.length + k ≤ 9)
    ?_ ?_ ?_ ?_ k a b
  · intro k a b
    dsimp only
    intro hpp hk
    unfold pval2scoreGo
    dsimp only
    rw [if_pos hpp]
    simp only [List.length_singleton]
    omega
  · intro k a b
    dsimp only
    intro hpp hmem hk
    unfold pval2scoreGo
    dsimp only
    rw [if_neg hpp, if_pos hmem]
    simp only [List.length_singleton]
    omega
  · intro k a b
    dsimp only
    intro hpp hmem hg ih hk
    unfold pval2scoreGo
    dsimp only
    rw [if_neg hpp, if_neg hmem, dif_pos hg]
    have hk' := gran_guard hg
    have := ih (by omega)
    simp only [List.length_cons]
    omega
  · intro k a b
    dsimp only
    intro hpp hmem hg hk
    unfold pval2scoreGo
    dsimp only
    rw [if_neg hpp, if_neg hmem, dif_neg hg]
    simp only [List.length_singleton]
    omega

/-- Every pass of the `score2pval` loop queries the integer score and window
obtained from that pass's own quantization by Python `int()` truncation. -/
theorem score2pvalGo_trace (m : PWM) (r t : ℚ) (mem : ℕ → ℚ) (k : ℕ) :
    ∀ e ∈ (score2pvalGo m r t mem k).trace,
      e.sc = pyInt (r * (computesIntegerMatrix m (gran e.k)).granularity +
          ((computesIntegerMatrix m (gran e.k)).offset : ℚ)) ∧
      e.min_s = pyInt (r * (computesIntegerMatrix m (gran e.k)).granularity +
          ((computesIntegerMatrix m (gran e.k)).offset : ℚ) -
          (computesIntegerMatrix m (gran e.k)).errorMax - 1) ∧
      e.max_s = pyInt (r * (computesIntegerMatrix m (gran e.k)).granularity +
          ((computesIntegerMatrix m (gran e.k)).offset : ℚ) +
          (computesIntegerMatrix m (gran e.k)).errorMax + 1) := by
  refine score2pvalGo.induct m r t mem (fun k =>
    ∀ e ∈ (score2pvalGo m r t mem k).trace,
      e.sc = pyInt (r * (computesIntegerMatrix m (gran e.k)).granularity +
          ((computesIntegerMatrix m (gran e.k)).offset : ℚ)) ∧
      e.min_s = pyInt (r * (computesIntegerMatrix m (gran e.k)).granularity +
          ((computesIntegerMatrix m (gran e.k)).offset : ℚ) -
          (computesIntegerMatrix m (gran e.k)).errorMax - 1) ∧
      e.max_s = pyInt (r * (computesIntegerMatrix m (gran e.k)).granularity +
          ((computesIntegerMatrix m (gran e.k)).offset : ℚ) +
          (computesIntegerMatrix m (gran e.k)).errorMax + 1))
    ?_ ?_ ?_ ?_ k
  · intro k hmem e he
    unfold score2pvalGo at he
    dsimp only at he
    rw [if_pos hmem] at he
    rcases List.mem_singleton.mp he with rfl
    exact ⟨rfl, rfl, rfl⟩
  · intro k
    dsimp only
    intro hmem hpp e he
    unfold score2pvalGo at he
    dsimp only at he
    rw [if_neg hmem, if_pos hpp] at he
    rcases List.mem_singleton.mp he with rfl
    exact ⟨rfl, rfl, rfl⟩
  · intro k
    dsimp only
    intro hmem hpp hg ih e he
    unfold score2pvalGo at he
    dsimp only at he
    rw [if_neg hmem, if_neg hpp, dif_pos hg] at he
    rcases List.mem_cons.mp he with rfl | he'
    · exact ⟨rfl, rfl, rfl⟩
    · exact ih e he'
  · intro k
    dsimp only
    intro hmem hpp hg e he
    unfold score2pvalGo at he
    dsimp only at he
    rw [if_neg hmem, if_neg hpp, dif_neg hg] at he
    rcases List.mem_singleton.mp he with rfl
    exact ⟨rfl, rfl, rfl⟩

/-- The `score2pval` loop entered at pass `k ≤ 8` runs at most `9 - k` more
passes. -/
theorem score2pvalGo_len (m : PWM) (r t : ℚ) (mem : ℕ → ℚ) (k : ℕ) :
    k ≤ 8 → (score2pvalGo m r t mem k).trace.length + k ≤ 9 := by
  refine score2pvalGo.induct m r t mem (fun k =>
    k ≤ 8 → (score2pvalGo m r t mem k).trace.length + k ≤ 9) ?_ ?_ ?_ ?_ k
  · intro k hmem hk
    unfold score2pvalGo
    dsimp only
    rw [if_pos hmem]
    simp only [List.length_singleton]
    omega
  · intro k
    dsimp only
    intro hmem hpp hk
    unfold score2pvalGo
    dsimp only
    rw [if_neg hmem, if_pos hpp]
    simp only [List.length_singleton]
    omega
  · intro k
    dsimp only
    intro hmem hpp hg ih hk
    unfold score2pvalGo
    dsimp only
    rw [if_neg hmem, if_neg hpp, dif_pos hg]
    have hk' := gran_guard hg
    have := ih (by omega)
    simp only [List.length_cons]
    omega
  · intro k
    dsimp only
    intro hmem hpp hg hk
    unfold score2pvalGo
    dsimp only
    rw [if_neg hmem, if_neg hpp, dif_neg hg]
    simp only [List.length_singleton]
    omega

/-- The `score2pval` loop always records at least one pass. -/
theorem score2pvalGo_trace_pos (m : PWM) (r t : ℚ) (mem : ℕ → ℚ) (k : ℕ) :
    0 < (score2pvalGo m r t mem k).trace.length := by
  refine score2pvalGo.induct m r t mem (fun k =>
    0 < (score2pvalGo m r t mem k).trace.length) ?_ ?_ ?_ ?_ k
  · intro k hmem
    unfold score2pvalGo
    dsimp only
    rw [if_pos hmem]
    simp
  · intro k
    dsimp only
    intro hmem hpp
    unfold score2pvalGo
    dsimp only
    rw [if_neg hmem, if_pos hpp]
    simp
  · intro k
    dsimp only
    intro hmem hpp hg ih
    unfold score2pvalGo
    dsimp only
    rw [if_neg hmem, if_neg hpp, dif_pos hg]
    simp
  · intro k
    dsimp only
    intro hmem hpp hg
    unfold score2pvalGo
    dsimp only
    rw [if_neg hmem, if_neg hpp, dif_neg hg]
    simp

theorem colQ_zero (w0 w1 w2 w3 : ℚ) : colQ w0 w1 w2 w3 0 = w0 := rfl

theorem colQ_one (w0 w1 w2 w3 : ℚ) : colQ w0 w1 w2 w3 1 = w1 := rfl

theorem colQ_two (w0 w1 w2 w3 : ℚ) : colQ w0 w1 w2 w3 2 = w2 := rfl

theorem colQ_three (w0 w1 w2 w3 : ℚ) : colQ w0 w1 w2 w3 3 = w3 := rfl

/-- A target p-value of 2 makes `lookForScore` clamp to `minScore` with the
non-convergence flag set. -/
theorem lookForScore_two (m : PWM) (q : QuantizationResult) (a b : ℤ) :
    lookForScore m q a b 2 = (q.minScore, 0, 1) := by
  rw [lookForScore_unreachable m q a b (Or.inr (by norm_num))]
  norm_num

/-- Claim C1 counterexample: on this run the single executed pass has equal
exact and approximate tail probabilities, yet the driver's outcome is
MEMORY_BUDGET_EXCEEDED, because tfmp.py tests the memory budget before the
convergence test — a converged pass can terminate as a degraded
memory-budget result. -/
theorem claim1_counterexample :
    (score2pval mOne 0 2 memZero).outcome = Outcome.memExceeded ∧
      ∀ e ∈ (score2pval mOne 0 2 memZero).trace,
        (lookForPvalue mOne (computesIntegerMatrix mOne (gran e.k))
            e.sc e.min_s e.max_s).1 =
          (lookForPvalue mOne (computesIntegerMatrix mOne (gran e.k))
            e.sc e.min_s e.max_s).2 := by
  constructor
  · unfold score2pval score2pvalGo
    dsimp only
    rw [if_pos (by norm_num [memZero])]
  · intro e _
    rfl

/-- Claim C1 (amended): in `score2pval` the memory-budget test precedes the
convergence test: a pass whose free-memory reading is at or below the budget
returns that pass's approximation with outcome MEMORY_BUDGET_EXCEEDED even
when its exact and approximate tail probabilities agree, so the first pass's
reading alone decides the run before convergence is consulted. -/
theorem claim1_amended (m : PWM) (r t : ℚ) (mem : ℕ → ℚ)
    (h : mem 0 ≤ t * 1000 * 1024 * 1024) :
    (score2pval m r t mem).outcome = Outcome.memExceeded ∧
      (score2pval m r t mem).finalPass = 0 := by
  unfold score2pval score2pvalGo
  dsimp only
  rw [if_pos h]
  exact ⟨rfl, rfl⟩

/-- Concrete witness run for claim C1's amended statement. -/
theorem claim1_witness :
    memZero 0 ≤ 2 * 1000 * 1024 * 1024 ∧
      ((score2pval mOne 0 2 memZero).outcome = Outcome.memExceeded ∧
        (score2pval mOne 0 2 memZero).finalPass = 0) :=
  ⟨by norm_num [memZero],
    claim1_amended mOne 0 2 memZero (by norm_num [memZero])⟩

/-- The trace of the claim C2 fixture run: one converged pass querying
integer score 0 with window `[0, 2]`. -/
theorem mOneTraceBig :
    (score2pval mOne (7 / 100) 2 memBig).trace = [⟨0, 0, 0, 2⟩] := by
  have hgr : (computesIntegerMatrix mOne (gran 0)).granularity = 10 := by
    norm_num [computesIntegerMatrix, gran]
  have hoff : ((computesIntegerMatrix mOne (gran 0)).offset : ℚ) = 0 := by
    norm_num [computesIntegerMatrix, mOne, colRound, colMin, colQ_zero,
      colQ_one, colQ_two, colQ_three, gran, round_eq, min_def]
  have herr : (computesIntegerMatrix mOne (gran 0)).errorMax = 1 / 2 := by
    norm_num [computesIntegerMatrix, mOne]
  unfold score2pval score2pvalGo
  dsimp only
  rw [if_neg (by norm_num [memBig])]
  simp only [lookForPvalue]
  simp only [if_true]
  rw [hgr, hoff, herr]
  norm_num [pyInt, Int.ceil_eq_iff, Int.floor_eq_iff]

/-- Claim C2 counterexample: on the fixture pass the integer score actually
queried is `int(0.7) = 0`, not `round(0.7) = 1`, and the window's lower end
is `int(0.7 - errorMax - 1) = 0`, not `round(0.7) - errorMax - 1 = -1/2`:
the code truncates the whole expressions with Python `int()` instead of
rounding the score and offsetting it by the exact real error bound. -/
theorem claim2_counterexample :
    ∃ e ∈ (score2pval mOne (7 / 100) 2 memBig).trace,
      e.sc ≠ round ((7 / 100) *
          (computesIntegerMatrix mOne (gran e.k)).granularity +
          ((computesIntegerMatrix mOne (gran e.k)).offset : ℚ)) ∧
        (e.min_s : ℚ) ≠ (round ((7 / 100) *
          (computesIntegerMatrix mOne (gran e.k)).granularity +
          ((computesIntegerMatrix mOne (gran e.k)).offset : ℚ)) : ℚ) -
          (computesIntegerMatrix mOne (gran e.k)).errorMax - 1 := by
  have hgr : (computesIntegerMatrix mOne (gran 0)).granularity = 10 := by
    norm_num [computesIntegerMatrix, gran]
  have hoff : ((computesIntegerMatrix mOne (gran 0)).offset : ℚ) = 0 := by
    norm_num [computesIntegerMatrix, mOne, colRound, colMin, colQ_zero,
      colQ_one, colQ_two, colQ_three, gran, round_eq, min_def]
  have herr : (computesIntegerMatrix mOne (gran 0)).errorMax = 1 / 2 := by
    norm_num [computesIntegerMatrix, mOne]
  refine ⟨⟨0, 0, 0, 2⟩, by rw [mOneTraceBig]; exact List.mem_singleton.mpr rfl,
    ?_, ?_⟩
  · dsimp only
    rw [hgr, hoff]
    norm_num [round_eq]
  · dsimp only
    rw [hgr, hoff, herr]
    norm_num [round_eq]

/-- Claim C2 (amended): on every pass of `score2pval` the integer score
queried is `int(reqScore * (1/granularity) + offset)` — Python truncation
toward zero of the rescaled score — and the window passed to the lookup is
`[int(reqScore * (1/granularity) + offset - errorMax - 1),
int(reqScore * (1/granularity) + offset + errorMax + 1)]`, the truncations of
the whole expressions, with offset and errorMax those of the current pass's
quantization. -/
theorem claim2_amended (m : PWM) (r t : ℚ) (mem : ℕ → ℚ) :
    ∀ e ∈ (score2pval m r t mem).trace,
      e.sc = pyInt (r * (computesIntegerMatrix m (gran e.k)).granularity +
          ((computesIntegerMatrix m (gran e.k)).offset : ℚ)) ∧
      e.min_s = pyInt (r * (computesIntegerMatrix m (gran e.k)).granularity +
          ((computesIntegerMatrix m (gran e.k)).offset : ℚ) -
          (computesIntegerMatrix m (gran e.k)).errorMax - 1) ∧
      e.max_s = pyInt (r * (computesIntegerMatrix m (gran e.k)).granularity +
          ((computesIntegerMatrix m (gran e.k)).offset : ℚ) +
          (computesIntegerMatrix m (gran e.k)).errorMax + 1) := by
  unfold score2pval
  exact score2pvalGo_trace m r (t * 1000 * 1024 * 1024) mem 0

/-- Concrete witness pass for claim C2's amended statement. -/
theorem claim2_witness :
    (⟨0, 0, 0, 2⟩ : SPPass) ∈ (score2pval mOne (7 / 100) 2 memBig).trace ∧
      ((⟨0, 0, 0, 2⟩ : SPPass).sc =
        pyInt ((7 / 100) *
          (computesIntegerMatrix mOne (gran (⟨0, 0, 0, 2⟩ : SPPass).k)).granularity +
          ((computesIntegerMatrix mOne (gran (⟨0, 0, 0, 2⟩ : SPPass).k)).offset : ℚ)) ∧
      (⟨0, 0, 0, 2⟩ : SPPass).min_s =
        pyInt ((7 / 100) *
          (computesIntegerMatrix mOne (gran (⟨0, 0, 0, 2⟩ : SPPass).k)).granularity +
          ((computesIntegerMatrix mOne (gran (⟨0, 0, 0, 2⟩ : SPPass).k)).offset : ℚ) -
          (computesIntegerMatrix mOne (gran (⟨0, 0, 0, 2⟩ : SPPass).k)).errorMax - 1) ∧
      (⟨0, 0, 0, 2⟩ : SPPass).max_s =
        pyInt ((7 / 100) *
          (computesIntegerMatrix mOne (gran (⟨0, 0, 0, 2⟩ : SPPass).k)).granularity +
          ((computesIntegerMatrix mOne (gran (⟨0, 0, 0, 2⟩ : SPPass).k)).offset : ℚ) +
          (computesIntegerMatrix mOne (gran (⟨0, 0, 0, 2⟩ : SPPass).k)).errorMax + 1)) :=
  ⟨by rw [mOneTraceBig]; exact List.mem_singleton.mpr rfl,
    claim2_amended mOne (7 / 100) 2 memBig ⟨0, 0, 0, 2⟩
      (by rw [mOneTraceBig]; exact List.mem_singleton.mpr rfl)⟩

/-- Claim C3: an unreachable target p-value — outside `[0, 1]` — makes
`pval2score` finish without convergence and with its final integer score
clamped to the final pass's `minScore` or `maxScore`, the returned real value
being that clamped score mapped back through the final pass's offset and
granularity rather than an undefined value. -/
theorem claim3_unreachable (m : PWM) {p : ℚ} (t : ℚ) (mem : ℕ → ℚ)
    (hp : p < 0 ∨ 1 < p) :
    (pval2score m p t mem).outcome ≠ Outcome.converged ∧
      ((pval2score m p t mem).finalS =
          (computesIntegerMatrix m
            (gran (pval2score m p t mem).finalPass)).minScore ∨
        (pval2score m p t mem).finalS =
          (computesIntegerMatrix m
            (gran (pval2score m p t mem).finalPass)).maxScore) ∧
      (pval2score m p t mem).value =
        (((pval2score m p t mem).finalS : ℚ) -
          ((computesIntegerMatrix m
            (gran (pval2score m p t mem).finalPass)).offset : ℚ)) /
        (computesIntegerMatrix m
          (gran (pval2score m p t mem).finalPass)).granularity := by
  unfold pval2score
  dsimp only
  refine ⟨(pval2scoreGo_clamp m (t * 1000 * 1024 * 1024) mem hp 0 _ _).1,
    (pval2scoreGo_clamp m (t * 1000 * 1024 * 1024) mem hp 0 _ _).2,
    pval2scoreGo_value m p (t * 1000 * 1024 * 1024) mem 0 _ _⟩

/-- Concrete witness run for claim C3: target p-value 2. -/
theorem claim3_witness :
    ((2 : ℚ) < 0 ∨ 1 < (2 : ℚ)) ∧
      ((pval2score mNeg 2 2 memZero).outcome ≠ Outcome.converged ∧
        ((pval2score mNeg 2 2 memZero).finalS =
            (computesIntegerMatrix mNeg
              (gran (pval2score mNeg 2 2 memZero).finalPass)).minScore ∨
          (pval2score mNeg 2 2 memZero).finalS =
            (computesIntegerMatrix mNeg
              (gran (pval2score mNeg 2 2 memZero).finalPass)).maxScore) ∧
        (pval2score mNeg 2 2 memZero).value =
          (((pval2score mNeg 2 2 memZero).finalS : ℚ) -
            ((computesIntegerMatrix mNeg
              (gran (pval2score mNeg 2 2 memZero).finalPass)).offset : ℚ)) /
          (computesIntegerMatrix mNeg
            (gran (pval2score mNeg 2 2 memZero).finalPass)).granularity) :=
  ⟨Or.inr (by norm_num),
    claim3_unreachable mNeg 2 memZero (Or.inr (by norm_num))⟩

/-- Claim C4: every terminating run of `pval2score` returns
`(s - offset) * granularity`, where `s` is the integer score of the final
`lookForScore` call and offset and granularity belong to the final pass's
quantization (the code divides by the stored reciprocal scale factor, which
is the same thing). -/
theorem claim4_final_score (m : PWM) (p t : ℚ) (mem : ℕ → ℚ) :
    (pval2score m p t mem).value =
      (((pval2score m p t mem).finalS : ℚ) -
        ((computesIntegerMatrix m
          (gran (pval2score m p t mem).finalPass)).offset : ℚ)) *
      gran (pval2score m p t mem).finalPass := by
  unfold pval2score
  dsimp only
  rw [pval2scoreGo_value m p (t * 1000 * 1024 * 1024) mem 0]
  rw [show (computesIntegerMatrix m
      (gran (pval2scoreGo m p (t * 1000 * 1024 * 1024) mem 0
        (computesIntegerMatrix m (1 / 10)).minScore
        ((computesIntegerMatrix m (1 / 10)).maxScore +
          ⌈(computesIntegerMatrix m (1 / 10)).errorMax + 1 / 2⌉)).finalPass)).granularity =
    1 / gran (pval2scoreGo m p (t * 1000 * 1024 * 1024) mem 0
        (computesIntegerMatrix m (1 / 10)).minScore
        ((computesIntegerMatrix m (1 / 10)).maxScore +
          ⌈(computesIntegerMatrix m (1 / 10)).errorMax + 1 / 2⌉)).finalPass from rfl]
  rw [div_div_eq_mul_div, div_one]

/-- Claim C5: the bracket for the first `lookForScore` call is
`[minScore, maxScore + ceil(errorMax + 0.5)]` from the initial quantization
at granularity `0.1`, and each later pass's bracket is the previous pass's
returned score widened by `ceil(errorMax + 0.5)` and rescaled by 10. -/
theorem claim5_brackets (m : PWM) (p t : ℚ) (mem : ℕ → ℚ) :
    (∃ s rest, (pval2score m p t mem).trace =
        ⟨0, (computesIntegerMatrix m (1 / 10)).minScore,
          (computesIntegerMatrix m (1 / 10)).maxScore +
            ⌈(computesIntegerMatrix m (1 / 10)).errorMax + 1 / 2⌉, s⟩ :: rest) ∧
      List.Chain' (bracketStep m) (pval2score m p t mem).trace := by
  unfold pval2score
  dsimp only
  exact pval2scoreGo_trace m p (t * 1000 * 1024 * 1024) mem 0 _ _

/-- Claim C6: the p-value `score2pval` returns is antitone in the requested
score, for any matrix with non-negative background probabilities. -/
theorem claim6_monotone (m : PWM) (s1 s2 t : ℚ) (mem : ℕ → ℚ)
    (hbg : ∀ a, 0 ≤ m.bg a) (h12 : s1 < s2) :
    (score2pval m s2 t mem).value ≤ (score2pval m s1 t mem).value := by
  rw [score2pval_value_eq, score2pval_value_eq]
  refine tailProb_anti m _ hbg ?_
  refine pyInt_mono ?_
  have hg : (0 : ℚ) ≤ (computesIntegerMatrix m (gran 0)).granularity := by
    show (0 : ℚ) ≤ 1 / gran 0
    norm_num [gran]
  have := mul_le_mul_of_nonneg_right h12.le hg
  linarith

/-- Concrete witness pair for claim C6: scores 0 and 1/2 on the fixture. -/
theorem claim6_witness :
    (∀ a, 0 ≤ mOne.bg a) ∧ (0 : ℚ) < 1 / 2 ∧
      (score2pval mOne (1 / 2) 2 memBig).value ≤
        (score2pval mOne 0 2 memBig).value :=
  ⟨fun a => by norm_num [mOne], by norm_num,
    claim6_monotone mOne 0 (1 / 2) 2 memBig (fun a => by norm_num [mOne])
      (by norm_num)⟩

/-- Claim C7: both refinement drivers terminate on every input — they are
total functions — and each executes at least one and at most 10 quantization
passes before returning. -/
theorem claim7_bounded (m : PWM) (r p t : ℚ) (mem : ℕ → ℚ) :
    (1 ≤ (score2pval m r t mem).trace.length ∧
      (score2pval m r t mem).trace.length ≤ 10) ∧
      (1 ≤ (pval2score m p t mem).trace.length ∧
        (pval2score m p t mem).trace.length ≤ 10) := by
  constructor
  · constructor
    · have := score2pvalGo_trace_pos m r (t * 1000 * 1024 * 1024) mem 0
      unfold score2pval
      omega
    · have := score2pvalGo_len m r (t * 1000 * 1024 * 1024) mem 0 (by norm_num)
      unfold score2pval
      omega
  · constructor
    · unfold pval2score
      dsimp only
      obtain ⟨s, rest, hr⟩ :=
        (pval2scoreGo_trace m p (t * 1000 * 1024 * 1024) mem 0
          (computesIntegerMatrix m (1 / 10)).minScore
          ((computesIntegerMatrix m (1 / 10)).maxScore +
            ⌈(computesIntegerMatrix m (1 / 10)).errorMax + 1 / 2⌉)).1
      rw [hr]
      simp
    · have := pval2scoreGo_len m p (t * 1000 * 1024 * 1024) mem 0
        (computesIntegerMatrix m (1 / 10)).minScore
        ((computesIntegerMatrix m (1 / 10)).maxScore +
          ⌈(computesIntegerMatrix m (1 / 10)).errorMax + 1 / 2⌉) (by norm_num)
      unfold pval2score
      dsimp only
      omega

/-- Claim C8 counterexample: two `pval2score` runs with identical matrix,
background, target p-value, memory budget and granularity schedule, differing
only in the free-memory readings, return different numeric scores — the
free-memory environment is an input the claim's list omits. -/
theorem claim8_counterexample :
    (pval2score mNeg 2 2 memZero).value ≠
      (pval2score mNeg 2 2 memPair).value := by
  have hA : (pval2score mNeg 2 2 memZero).value = -(1 / 10) := by
    unfold pval2score pval2scoreGo
    dsimp only
    rw [lookForScore_two]
    dsimp only
    rw [if_neg (by norm_num), if_pos (by norm_num [memZero])]
    rw [computesIntegerMatrix_minScore]
    norm_num [computesIntegerMatrix, mNeg, colRound, colMin, colQ_zero,
      colQ_one, colQ_two, colQ_three, gran, round_eq, min_def,
      Int.floor_eq_iff]
  have hB : (pval2score mNeg 2 2 memPair).value = -(13 / 100) := by
    unfold pval2score pval2scoreGo
    dsimp only
    rw [lookForScore_two]
    dsimp only
    rw [if_neg (by norm_num), if_neg (by norm_num [memPair]),
      dif_pos (by norm_num [gran, maxGran])]
    unfold pval2scoreGo
    dsimp only
    rw [lookForScore_two]
    dsimp only
    rw [if_neg (by norm_num), if_pos (by norm_num [memPair])]
    rw [computesIntegerMatrix_minScore]
    norm_num [computesIntegerMatrix, mNeg, colRound, colMin, colQ_zero,
      colQ_one, colQ_two, colQ_three, gran, round_eq, min_def,
      Int.floor_eq_iff]
  rw [hA, hB]
  norm_num

/-- Claim C8 (amended): the per-pass free-memory readings are a genuine input
of both drivers — the counterexample shows two `pval2score` runs differing
only in them return different scores — and once they are included among the
inputs both drivers are deterministic: two runs with identical matrix,
background, requested score or target p-value, memory budget, granularity
schedule and identical per-pass free-memory readings return identical
numeric results. -/
theorem claim8_amended (m : PWM) (r p t : ℚ) (mem1 mem2 : ℕ → ℚ)
    (h : ∀ k, mem1 k = mem2 k) :
    (score2pval m r t mem1).value = (score2pval m r t mem2).value ∧
      (pval2score m p t mem1).value = (pval2score m p t mem2).value := by
  have hmem : mem1 = mem2 := funext h
  rw [hmem]
  exact ⟨rfl, rfl⟩

/-- Concrete witness for claim C8's amended statement: two syntactically
different but pointwise-equal free-memory environments. -/
theorem claim8_witness :
    (∀ k, memZero k = (fun _ => (0 : ℚ)) k) ∧
      ((score2pval mNeg 2 2 memZero).value =
          (score2pval mNeg 2 2 (fun _ => (0 : ℚ))).value ∧
        (pval2score mNeg 2 2 memZero).value =
          (pval2score mNeg 2 2 (fun _ => (0 : ℚ))).value) :=
  ⟨fun _ => rfl,
    claim8_amended mNeg 2 2 2 memZero (fun _ => (0 : ℚ)) (fun _ => rfl)⟩

/-- Claim C9: an unrecognized log-type argument to `create_matrix` with a
counts matrix does not fail: it warns, falls back to the natural-log
conversion, and returns the same handle as the `"nat"` call. -/
theorem claim9_fallback (f : String) (bg : ℚ × ℚ × ℚ × ℚ) (lt : String)
    (h1 : pyUpper lt ≠ "NAT") (h2 : pyUpper lt ≠ "LOG2") :
    create_matrix f bg "counts" lt =
      ((create_matrix f bg "counts" "nat").1, true) := by
  unfold create_matrix
  dsimp only
  rw [if_pos (by decide : pyUpper "counts" = "COUNTS"), if_neg h1, if_neg h2,
    if_pos (by decide : pyUpper "counts" = "COUNTS"),
    if_pos (by decide : pyUpper "nat" = "NAT")]

/-- Concrete witness for claim C9: log type `"foo"`. -/
theorem claim9_witness :
    pyUpper "foo" ≠ "NAT" ∧ pyUpper "foo" ≠ "LOG2" ∧
      create_matrix "1 2 3 4" (1 / 4, 1 / 4, 1 / 4, 1 / 4) "counts" "foo" =
        ((create_matrix "1 2 3 4" (1 / 4, 1 / 4, 1 / 4, 1 / 4) "counts"
          "nat").1, true) :=
  ⟨by decide, by decide,
    claim9_fallback "1 2 3 4" (1 / 4, 1 / 4, 1 / 4, 1 / 4) "foo"
      (by decide) (by decide)⟩

/-- Claim C10: an input whose whitespace-separated token count is not
divisible by 4 makes `read_matrix` raise a `ValueError` internally — before
any `Matrix` object is constructed — catch it itself, and return `None`. -/
theorem claim10_uneven (s : String) (bg : ℚ × ℚ × ℚ × ℚ) (mt lt : String)
    (h : (pySplit s).length % 4 ≠ 0) :
    read_matrixBody s bg mt lt =
      Except.error
        "Uneven rows in motif matrix. Ensure rows of equal length in input." ∧
      read_matrix s bg mt lt = none := by
  constructor
  · unfold read_matrixBody
    rw [if_pos h]
  · unfold read_matrix read_matrixBody
    rw [if_pos h]
    rfl

/-- Concrete witness for claim C10: a three-token input. -/
theorem claim10_witness :
    (pySplit "1 2 3").length % 4 ≠ 0 ∧
      (read_matrixBody "1 2 3" (1 / 4, 1 / 4, 1 / 4, 1 / 4) "counts" "nat" =
        Except.error
          "Uneven rows in motif matrix. Ensure rows of equal length in input." ∧
        read_matrix "1 2 3" (1 / 4, 1 / 4, 1 / 4, 1 / 4) "counts" "nat" =
          none) :=
  ⟨by decide,
    claim10_uneven "1 2 3" (1 / 4, 1 / 4, 1 / 4, 1 / 4) "counts" "nat"
      (by decide)⟩

end PyTFM
